import Mathlib

/-!
Verification of the neisandb per-collection storage engine (`src/neisandb/collection.ts`)
against its natural-language specification.

The engine is shallowly embedded: the `DataStore` class becomes a Lean structure
holding its mutable fields together with the opaque external collaborators
(schema validator, throwing parser, binary codec length) as function fields.
The B-tree page (`DataTree`) is modelled as an association list of
`(id, lsn) ↦ record` entries kept sorted by the source's comparator; JavaScript's
cooperative single-threaded execution lets the async methods be modelled as pure
state-passing functions, with thrown exceptions as `Except String` and the
structured `{success: false, errors}` returns as an `Errs` value.
-/

namespace NeisanDB

/-- Documents are opaque schema-validated payloads; we model them as association
lists from field names to integer-coded values. JavaScript property access
(`record[field]`, yielding `undefined` when the field is absent) is modelled by
`Payload.get` returning an `Option`. -/
abbrev Payload := List (String × Int)

def Payload.get (p : Payload) (f : String) : Option Int :=
  (p.find? (fun kv => kv.1 == f)).map (fun kv => kv.2)

/-- Record key of the page tree: `{id, lsn}` (`DataTreeEntry` key in collection.ts). -/
structure RKey where
  id : Int
  lsn : Int
deriving DecidableEq

/-- The `DataTree` comparator of collection.ts lines 43-48: primary by `id`
ascending, secondary by `lsn` ascending. `RKey.le a b` states that `a` sorts
no later than `b`. -/
def RKey.le (a b : RKey) : Prop :=
  a.id < b.id ∨ (a.id = b.id ∧ a.lsn ≤ b.lsn)

instance (a b : RKey) : Decidable (RKey.le a b) := by
  unfold RKey.le; exact inferInstance

/-- Record value: a live schema-validated payload or the `"DELETED"` tombstone. -/
inductive Val where
  | live (p : Payload)
  | deleted
deriving DecidableEq

/-- The in-memory page (`DataTree extends BTree`): an ordered map from `RKey` to
`Val`, modelled as an association list sorted ascending by the comparator. -/
abbrev Tree := List (RKey × Val)

/-- `BTree.set`: insert a key/value pair, replacing the value when the key is
already present, keeping the list sorted. -/
def Tree.set : Tree → RKey → Val → Tree
  | [], k, v => [(k, v)]
  | e :: t, k, v =>
    if e.1 = k then (k, v) :: t
    else if RKey.le k e.1 then (k, v) :: e :: t
    else e :: Tree.set t k v

/-- `BTree.size`: the number of stored keys. -/
def Tree.size (t : Tree) : Nat := t.length

/-- `BTree.entriesReversed`: all entries in descending key order. -/
def Tree.entriesReversed (t : Tree) : Tree := t.reverse

/-- `BTree.getPairOrNextLower(probe)`: the entry with the largest key that is
less than or equal to the probe, if any (the "floor lookup"). -/
def Tree.floor : Tree → RKey → Option (RKey × Val)
  | [], _ => none
  | e :: t, p =>
    match Tree.floor t p with
    | none => if RKey.le e.1 p then some e else none
    | some b => if RKey.le e.1 p ∧ ¬ RKey.le e.1 b.1 then some e else some b

/-- A model instance as returned to callers: `new this.model(payload, id)`.
The model layer's virtual properties are out of scope; only the payload and the
id are observable to the engine. -/
structure Instance where
  data : Payload
  id : Int
deriving DecidableEq

/-- Structured errors of a `Failure` return: either `{general: string}` or a
mapping keyed by schema field names. -/
inductive Errs where
  | general (msg : String)
  | fields (m : List (String × String))
deriving DecidableEq

/-- A thrown JavaScript exception as observed by the catch blocks: ZodErrors
additionally carry their issues (pairs of path head and message). -/
structure Exn where
  zodIssues : Option (List (String × String))
  message : String

/-- Outcome of a single-record mutating method: `Failure | Return<Instance>`. -/
abbrev Outcome := Except Errs Instance

/-- Outcome of a multi-record mutating method: `Failure | Return<Array<Instance>>`. -/
abbrev OutcomeL := Except Errs (List Instance)

/-- `FixedArray` from src/shared/fixed-array.ts: a bounded array used as the
LRU page cache (oldest entry first). -/
structure FixedArray (α : Type) where
  entries : List α
  limit : Nat
deriving DecidableEq

/-- `FixedArray.insert`: when full, drop the oldest entry (`splice(0, 1)`), then
push the new entry at the most-recent end. -/
def FixedArray.insert (fa : FixedArray α) (item : α) : FixedArray α :=
  let entries := if fa.entries.length ≥ fa.limit then fa.entries.drop 1 else fa.entries
  { fa with entries := entries ++ [item] }

/-- Modelled from the spec: `FixedArray.reversedEntries` is called by
`DataStore.findOne` (collection.ts line 446) but is absent from the
src/shared/fixed-array.ts source; the spec describes the cache probe as
"probe each cache entry with the same floor lookup (newest-first)", so it
iterates the entries from the most recently inserted backwards. -/
def FixedArray.reversedEntries (fa : FixedArray α) : List α :=
  fa.entries.reverse

/-- `TREE_SIZE`: the page-rotation bound on the in-memory tree
(`private readonly treesize: number = 1500`). -/
def treesize : Nat := 1500

/-- `PAGE_SIZE` in bytes (`private readonly pagesize: number = 1024 * 256`). -/
def pagesize : Nat := 1024 * 256

/-- `ID(x)`: `z.coerce.number().min(0, "Invalid ID").parse(x)` — throws on a
negative id (src/types.ts). -/
def IDparse (x : Int) : Except String Int :=
  if x < 0 then .error ("Invalid ID") else .ok x

/-- `LSN(x)`: `z.coerce.number().min(0, "Invalid LSN").parse(x)` — throws on a
negative LSN (src/types.ts). -/
def LSNparse (x : Int) : Except String Int :=
  if x < 0 then .error ("Invalid LSN") else .ok x

/-- The `DataStore` class: immutable construction-time collaborators (the
schema's async-safe validator, its throwing `parse`, the unique field names,
the id/page base `start`, and the codec's encoded length) together with the
mutable engine state. The file is modelled as the list of its decoded page
slots (the external codec round-trips trees exactly, per its contract), with
`filesize` the known end-of-file byte offset. Armed debounce timers are
modelled explicitly: `timers` is the list of pending timer ids, `flushTimeout`
the handle last stored in `this.flushTimeout`, `nextTimer` a fresh-id counter. -/
structure DataStore where
  uniques : List String
  start : Int
  validate : Payload → Except (List (String × String)) Payload
  parse : Payload → Except Exn Payload
  encodedLen : Tree → Nat
  tree : Tree
  cache : FixedArray Tree
  id : Int
  lsn : Int
  filesize : Nat
  lastFlushed : Int
  file : List (Option Tree)
  fileExists : Bool
  flushTimeout : Option Nat
  timers : List Nat
  nextTimer : Nat

/-- `clearTimeout(this.flushTimeout)`: the timer whose handle is stored is no
longer pending (clearing an undefined handle is a no-op). -/
def DataStore.clearTimer (s : DataStore) : DataStore :=
  match s.flushTimeout with
  | none => s
  | some h => { s with timers := s.timers.filter (fun t => t != h) }

/-- `this.flushTimeout = setTimeout(...)`: arm a fresh 30-second debounced
flush timer and store its handle, leaving previously armed timers pending. -/
def DataStore.armTimer (s : DataStore) : DataStore :=
  { s with timers := s.timers ++ [s.nextTimer], flushTimeout := some s.nextTimer,
           nextTimer := s.nextTimer + 1 }

/-- `DataStore.#position(lsn)`: byte position of the page holding `lsn`,
`floor((max(0, lsn) − start) / TREE_SIZE) · PAGE_SIZE`. -/
def DataStore.positionOf (s : DataStore) (lsn : Int) : Int :=
  ((max 0 lsn - s.start).fdiv (treesize : Int)) * (pagesize : Int)

/-- Write a decoded page into the file slot at the given page index, extending
the file with unwritten slots as needed. -/
def setSlot (file : List (Option Tree)) (idx : Nat) (t : Tree) : List (Option Tree) :=
  let file := if file.length ≤ idx then file ++ List.replicate (idx + 1 - file.length) none else file
  file.set idx (some t)

/-- `DataStore.#flush(lsn)`: validate the LSN, no-op when `lastFlushed ≥ lsn`,
otherwise ensure the file exists and write the encoded current page at its
LSN-derived position (rejecting an encoding larger than `PAGE_SIZE − 8`),
growing `filesize` and advancing `lastFlushed`. A negative page position is
rejected by the runtime's `fs.write`. -/
def DataStore.flushInternal (s : DataStore) (lsn : Int) : Except String DataStore :=
  match LSNparse lsn with
  | .error e => .error e
  | .ok lsn =>
    if s.lastFlushed ≥ lsn then .ok s
    else
      let s := { s with fileExists := true }
      let position : Int := s.positionOf lsn
      let encodedLength := s.encodedLen s.tree
      if encodedLength > pagesize - 8 then .error ("Encoded tree too large for page")
      else if position < 0 then .error ("Invalid write position")
      else
        let grown := position.toNat + pagesize
        .ok { s with
          file := setSlot s.file (position.toNat / pagesize) s.tree,
          filesize := if grown > s.filesize then grown else s.filesize,
          lastFlushed := lsn }

/-- `DataStore.flush()`: cancel the armed debounced timer, then `#flush(max_lsn)`. -/
def DataStore.flush (s : DataStore) : Except String DataStore :=
  DataStore.flushInternal s.clearTimer s.clearTimer.lsn

/-- Page-rotation block repeated verbatim after each single mutation in the
source (insert lines 389-397, findOneAndUpdate lines 518-526, findOneAndDelete
lines 555-563): once the tree reaches `TREE_SIZE`, flush it, insert it into the
cache and start a fresh page; otherwise arm a new debounced flush timer. -/
def rotateOrArm (s : DataStore) : Except String DataStore :=
  if s.tree.size ≥ treesize then
    match s.flushInternal s.lsn with
    | .error e => .error e
    | .ok s2 => .ok { s2 with cache := s2.cache.insert s2.tree, tree := [] }
  else
    .ok s.armTimer

/-- `DataStore.#schemaFailure`: ZodError issues become an errors object keyed by
the head of each issue path (later issues overwrite earlier ones with the same
key, as JavaScript object assignment does). -/
def setAssoc (m : List (String × String)) (k v : String) : List (String × String) :=
  match m with
  | [] => [(k, v)]
  | e :: rest => if e.1 = k then (k, v) :: rest else e :: setAssoc rest k v

def toErrObj (issues : List (String × String)) : List (String × String) :=
  issues.foldl (fun acc i => setAssoc acc i.1 i.2) []

def schemaFailure (issues : List (String × String)) : Errs :=
  .fields (toErrObj issues)

/-- `DataStore.#uniqueConflictFailure(key)`. -/
def uniqueConflictFailure (u : String) : Errs :=
  .fields [(u, "Conflict as unique key")]

/-- `DataStore.#noMatchFailure()`. -/
def noMatchFailure : Errs := .general ("No Document Matches")

/-- The catch block of `findOneAndUpdate` (lines 529-534): a ZodError returns
the field-keyed schema failure, any other exception a general failure carrying
its message. -/
def exnToErrs (e : Exn) : Errs :=
  match e.zodIssues with
  | some issues => schemaFailure issues
  | none => .general e.message

/-- The catch block of `findAndUpdate` (lines 744-749): for a ZodError the
field-keyed schema failure is first assigned to `error`, but the subsequent
unconditional assignment (there is no early return) overwrites it, so every
caught exception ends up as a general failure carrying the exception message. -/
def caughtFailure (e : Exn) : Errs :=
  Errs.general e.message

/-- State of the uniqueness scan: the conflicting field once found, and the
`seen` set of visited ids shared across the memory and disk phases. -/
structure ScanState where
  conflict : Option String
  seen : List Int

/-- One tree pass of `DataStore.#checkUniques` (lines 242-259): walk the
entries in descending key order; skip ids already seen, mark each id seen; a
live record whose value at some unique field equals the candidate's value at
that field, for an id different from the candidate's id, is a conflict. -/
def scanTree (uniques : List String) (checked : Payload) (excl : Option Int)
    (st : ScanState) (t : Tree) : ScanState :=
  t.entriesReversed.foldl (fun st e =>
    if st.conflict.isSome then st
    else if e.1.id ∈ st.seen then st
    else
      let st := { st with seen := e.1.id :: st.seen }
      match e.2 with
      | .deleted => st
      | .live rec =>
        { st with conflict := uniques.findSome? (fun u =>
            if Payload.get rec u = Payload.get checked u ∧ excl ≠ some e.1.id
            then some u else none) }) st

/-- Disk phase of `DataStore.#checkUniques` (lines 279-296): walk page slots
from the start index down to slot 0, skipping positions where no bytes are
read, repeating the scan with the shared seen set, stopping at a conflict. -/
def scanPages (uniques : List String) (checked : Payload) (excl : Option Int)
    (file : List (Option Tree)) : ScanState → Nat → Option String
  | st, 0 =>
    (match file.getD 0 none with
     | none => st
     | some t => scanTree uniques checked excl st t).conflict
  | st, n + 1 =>
    let st :=
      match file.getD (n + 1) none with
      | none => st
      | some t => scanTree uniques checked excl st t
    match st.conflict with
    | some u => some u
    | none => scanPages uniques checked excl file st n

/-- `DataStore.#checkUniques(checked, id)` (lines 233-300): scan the current
page in memory; if no conflict and the file exists, compute the disk start
position as `#position(this.lsn) − this.filesize` (note: the file size is
subtracted from the newest page's position), bail out when it exceeds the file
size, and otherwise walk pages downwards from it; `excl = none` models the
`Infinity` sentinel used for inserts. Returns the conflicting field, if any. -/
def DataStore.checkUniques (s : DataStore) (checked : Payload) (excl : Option Int) :
    Option String :=
  let st := scanTree s.uniques checked excl ⟨none, []⟩ s.tree
  if st.conflict.isSome then st.conflict
  else if ¬ s.fileExists then none
  else
    let position : Int := s.positionOf s.lsn - (s.filesize : Int)
    if position > (s.filesize : Int) then none
    else if position < 0 then none
    else scanPages s.uniques checked excl s.file st (position.toNat / pagesize)

/-- The floor lookup of the id path of `findOne` applied to one tree
(lines 434-440): take `getPairOrNextLower({lsn, id})`; a hit whose key carries
the searched id yields the live instance, or nothing for a tombstone; any other
outcome yields nothing. -/
def findRecordById (t : Tree) (search lsn : Int) : Option Instance :=
  match Tree.floor t ⟨search, lsn⟩ with
  | none => none
  | some (k, v) =>
    if k.id = search then
      match v with
      | .deleted => none
      | .live p => some ⟨p, search⟩
    else none

/-- Disk phase of the id path of `findOne` (lines 465-482): walk page slots
from the start index down to slot 0, skipping unread positions, returning the
first tree whose floor lookup yields an answer. -/
def findPages (file : List (Option Tree)) (search lsn : Int) : Nat → Option Instance
  | 0 =>
    (match file.getD 0 none with
     | none => none
     | some t => findRecordById t search lsn)
  | n + 1 =>
    match file.getD (n + 1) none with
    | none => findPages file search lsn n
    | some t =>
      match findRecordById t search lsn with
      | some m => some m
      | none => findPages file search lsn n

/-- `DataStore.findOne(id)` (id path, lines 405-487): validate the id, return
nothing beyond `max_id`, snapshot the LSN, floor-probe the current page, then
each cache entry newest-first, then the file pages from the LSN-derived
position downwards. -/
def DataStore.findOne (s : DataStore) (search : Int) : Except String (Option Instance) :=
  match IDparse search with
  | .error e => .error e
  | .ok search =>
    if search > s.id then .ok none
    else
      let lsn := s.lsn
      match findRecordById s.tree search lsn with
      | some found => .ok (some found)
      | none =>
        match s.cache.reversedEntries.findSome? (fun t => findRecordById t search lsn) with
        | some found => .ok (some found)
        | none =>
          if ¬ s.fileExists then .ok none
          else
            let position : Int := s.positionOf lsn
            if position > (s.filesize : Int) then .ok none
            else if position < 0 then .ok none
            else .ok (findPages s.file search lsn (position.toNat / pagesize))

/-- `DataStore.exists(id)`: whether `findOne` returns a defined result. -/
def DataStore.existsId (s : DataStore) (search : Int) : Except String Bool :=
  match s.findOne search with
  | .error e => .error e
  | .ok m => .ok m.isSome

/-- `DataStore.insert(data)` (lines 373-401): validate the payload, run the
uniqueness scan with the `Infinity` sentinel, allocate the next LSN and id,
place the live entry, apply the page-rotation block, and return the instance. -/
def DataStore.insert (s : DataStore) (data : Payload) : Except String (Outcome × DataStore) :=
  match s.validate data with
  | .error issues => .ok (.error (schemaFailure issues), s)
  | .ok parsed =>
    match s.checkUniques parsed none with
    | some u => .ok (.error (uniqueConflictFailure u), s)
    | none =>
      let s := { s with lsn := s.lsn + 1, id := s.id + 1 }
      let s := { s with tree := s.tree.set ⟨s.id, s.lsn⟩ (.live parsed) }
      match rotateOrArm s with
      | .error e => .error e
      | .ok s => .ok (.ok ⟨parsed, s.id⟩, s)

/-- `DataStore.findOneAndDelete(id)` (lines 542-567): resolve the id; when
found, place a tombstone at the next LSN, apply the page-rotation block, and
return the pre-deletion instance. -/
def DataStore.findOneAndDelete (s : DataStore) (search : Int) :
    Except String (Option Instance × DataStore) :=
  match s.findOne search with
  | .error e => .error e
  | .ok none => .ok (none, s)
  | .ok (some found) =>
    let mid := { s with lsn := s.lsn + 1 }
    let mid := { mid with tree := mid.tree.set ⟨found.id, mid.lsn⟩ .deleted }
    match rotateOrArm mid with
    | .error e => .error e
    | .ok s3 => .ok (some found, s3)

/-- `DataStore.findOneAndUpdate(id, updater)` (lines 489-536): resolve the id;
run the updater and the throwing re-validation inside a try block (a ZodError
surfaces keyed by field, any other exception as a general failure), run the
uniqueness scan with the instance's id, place the updated record at the next
LSN under the found id, and apply the page-rotation block (whose flush errors
are caught as general failures, keeping the post-placement state). -/
def DataStore.findOneAndUpdate (s : DataStore) (search : Int)
    (updater : Instance → Except Exn Instance) : Except String (Outcome × DataStore) :=
  match s.findOne search with
  | .error e => .error e
  | .ok none => .ok (.error noMatchFailure, s)
  | .ok (some found) =>
    match updater found with
    | .error e => .ok (.error (exnToErrs e), s)
    | .ok updated =>
      match s.parse updated.data with
      | .error e => .ok (.error (exnToErrs e), s)
      | .ok record =>
        match s.checkUniques record (some updated.id) with
        | some u => .ok (.error (uniqueConflictFailure u), s)
        | none =>
          let mid := { s with lsn := s.lsn + 1 }
          let mid := { mid with tree := mid.tree.set ⟨found.id, mid.lsn⟩ (.live record) }
          match rotateOrArm mid with
          | .ok s3 => .ok (.ok updated, s3)
          | .error msg => .ok (.error (.general msg), mid)

/-- Pagination options of `find`: `Partial<Record<"limit" | "offset", number>>`. -/
structure FindOptions where
  offset : Option Nat := none
  limit : Option Nat := none

/-- A schema predicate `(record, id) => boolean`. -/
abbrev Pred := Payload → Int → Bool

/-- `Array.prototype.slice(start, end)` on the gathered match array:
`slice(options.offset ?? 0, options.limit ?? Infinity)`. -/
def jsSlice (xs : List α) (offset : Option Nat) (limit : Option Nat) : List α :=
  match limit with
  | none => xs.drop (offset.getD 0)
  | some l => (xs.take l).drop (offset.getD 0)

/-- One tree pass of `find` (lines 585-598): walk entries in descending key
order, skip seen ids, mark seen, skip tombstones, and gather every live record
satisfying the predicate (or every live record when there is none). -/
def matchScan (pred : Option Pred) (acc : List Int × List Instance) (t : Tree) :
    List Int × List Instance :=
  t.entriesReversed.foldl (fun acc e =>
    let (seen, founds) := acc
    if e.1.id ∈ seen then acc
    else
      let seen := e.1.id :: seen
      match e.2 with
      | .deleted => (seen, founds)
      | .live rec =>
        match pred with
        | some p => if p rec e.1.id then (seen, founds ++ [⟨rec, e.1.id⟩]) else (seen, founds)
        | none => (seen, founds ++ [⟨rec, e.1.id⟩])) acc

/-- Disk phase of `find` (lines 631-647): walk page slots from the start index
down to slot 0, accumulating results with the shared seen set. -/
def findScanPages (pred : Option Pred) (file : List (Option Tree)) :
    (List Int × List Instance) → Nat → List Instance
  | acc, 0 =>
    (match file.getD 0 none with
     | none => acc
     | some t => matchScan pred acc t).2
  | acc, n + 1 =>
    findScanPages pred file
      (match file.getD (n + 1) none with
       | none => acc
       | some t => matchScan pred acc t) n

/-- The `limited.length > 0 ? limited : undefined` return of `find`. -/
def sliceResult (options : FindOptions) (founds : List Instance) : Option (List Instance) :=
  let limited := jsSlice founds options.offset options.limit
  if limited.length > 0 then some limited else none

/-- `DataStore.find(predicate?, options?)` (lines 569-655): snapshot the LSN,
scan the current page, return early (sliced) when `lsn + start < TREE_SIZE`,
when the file is missing, or when the page position is negative; skip the
newest page when its position equals `filesize − PAGE_SIZE`; otherwise also
accumulate results from the file pages walking downwards, and slice. The
cache is not consulted by `find`. -/
def DataStore.find (s : DataStore) (pred : Option Pred) (options : FindOptions) :
    Option (List Instance) :=
  let lsn := s.lsn
  let acc := matchScan pred ([], []) s.tree
  if lsn + s.start < (treesize : Int) then sliceResult options acc.2
  else if ¬ s.fileExists then sliceResult options acc.2
  else
    let position := s.positionOf lsn
    if position < 0 then sliceResult options acc.2
    else
      let position :=
        if position = (s.filesize : Int) - (pagesize : Int) then position - (pagesize : Int)
        else position
      if position < 0 then sliceResult options acc.2
      else sliceResult options (findScanPages pred s.file acc (position.toNat / pagesize))

/-- One iteration of the `findAndUpdate` per-match loop (lines 725-750): run
the updater and the throwing re-validation (a thrown exception is caught and
recorded as the general failure, see `caughtFailure`); a uniqueness conflict is
returned from the callback without recording anything; otherwise place the
updated record at the next LSN under the match's id and, when the tree reaches
`TREE_SIZE`, flush it, cache it and reset it (without arming a timer). Returns
the new state, the failure recorded by this iteration, and the pushed result. -/
def faUIter (s : DataStore) (updater : Instance → Except Exn Instance) (m : Instance) :
    DataStore × Option Errs × Option Instance :=
  match updater m with
  | .error e => (s, some (caughtFailure e), none)
  | .ok updated =>
    match s.parse updated.data with
    | .error e => (s, some (caughtFailure e), none)
    | .ok record =>
      match s.checkUniques record (some m.id) with
      | some _ => (s, none, none)
      | none =>
        let mid := { s with lsn := s.lsn + 1 }
        let mid := { mid with tree := mid.tree.set ⟨m.id, mid.lsn⟩ (.live record) }
        if mid.tree.size ≥ treesize then
          match mid.flushInternal mid.lsn with
          | .error msg => (mid, some (.general msg), none)
          | .ok s2 => ({ s2 with cache := s2.cache.insert s2.tree, tree := [] }, none, some updated)
        else (mid, none, some updated)

/-- The `findAndUpdate` per-match loop: the found records are processed in order (the
deterministic semantics of the cooperatively scheduled, limiter-bounded
`Promise.all`); an iteration that starts after a failure was recorded returns
immediately (`if (error) return;`). -/
def faULoop (updater : Instance → Except Exn Instance) :
    (DataStore × Option Errs × List Instance) → List Instance →
    DataStore × Option Errs × List Instance
  | acc, [] => acc
  | acc, m :: ms =>
    let acc' :=
      if acc.2.1.isSome then acc
      else
        let (s', err', upd?) := faUIter acc.1 updater m
        (s', err', acc.2.2 ++ upd?.toList)
    faULoop updater acc' ms

/-- `DataStore.findAndUpdate(predicate?, updater)` (lines 700-760): resolve all
the matching records via `find`; with no match return the no-match failure; cancel the
armed debounced timer, run the per-match loop, re-arm the debounced timer, and
return the recorded failure if any, else the collected updates. -/
def DataStore.findAndUpdate (s : DataStore) (pred : Option Pred)
    (updater : Instance → Except Exn Instance) : OutcomeL × DataStore :=
  match s.find pred {} with
  | none => (.error noMatchFailure, s)
  | some founds =>
    let s := s.clearTimer
    let (s, error, results) := faULoop updater (s, none, []) founds
    let s := s.armTimer
    match error with
    | some e => (.error e, s)
    | none => (.ok results, s)

/-- The decoded pages of the file from the given page index down to page 0,
skipping slots where no bytes are read. -/
def pagesDescending (file : List (Option Tree)) : Nat → List Tree
  | 0 => (file.getD 0 none).toList
  | n + 1 => (file.getD (n + 1) none).toList ++ pagesDescending file n

/-- The disk trees probed by the point lookup, in probe order: none when the
file does not exist or the LSN-derived position lies outside the file;
otherwise the pages from that position downwards. -/
def DataStore.diskTrees (s : DataStore) : List Tree :=
  if ¬ s.fileExists then []
  else
    let position := s.positionOf s.lsn
    if position > (s.filesize : Int) then []
    else if position < 0 then []
    else pagesDescending s.file (position.toNat / pagesize)

/-- All trees probed by the point lookup, in probe order: the current page,
then the cache entries newest-first, then the disk pages newest-first. -/
def DataStore.probeTrees (s : DataStore) : List Tree :=
  s.tree :: (s.cache.reversedEntries ++ s.diskTrees)

/-- Specification-level form of the point lookup, following the amended claim:
an id beyond `max_id` yields none; otherwise the result is the first live floor
hit over the probed trees in order (current page, cache newest-first, disk
pages downwards) — a tombstone floor hit yields no answer from its tree and
probing continues; no cache promotion takes place. -/
def DataStore.findOneSpec (s : DataStore) (search : Int) : Except String (Option Instance) :=
  match IDparse search with
  | .error e => .error e
  | .ok search =>
    if search > s.id then .ok none
    else .ok (s.probeTrees.findSome? (fun t => findRecordById t search s.lsn))

/-! ### Byte-level page image

The byte-level behaviour of `#flush`'s page write (collection.ts lines 206-216)
is modelled separately from the state-level embedding, over an arbitrary
encoded byte string produced by the external codec. -/

/-- The four bytes written by `DataView.setUint32(0, n, true)` (little-endian). -/
def le32 (n : Nat) : List Nat :=
  [n % 256, n / 256 % 256, n / 65536 % 256, n / 16777216 % 256]

/-- The page image built by `#flush`: if the encoded length exceeds
`PAGE_SIZE − 8`, fail fatally; otherwise a zero-filled `PAGE_SIZE` buffer
carrying the little-endian length at offset 0 (offsets 4-7 remain zero) and
the encoded bytes copied from offset 8, zero-padded to the page boundary. -/
def writePageBuffer (encoded : List Nat) : Except String (List Nat) :=
  if encoded.length > pagesize - 8 then .error ("Encoded tree too large for page")
  else .ok (le32 encoded.length ++ [0, 0, 0, 0] ++ encoded ++
            List.replicate (pagesize - 8 - encoded.length) 0)

/-! ### Concrete collections and scenario states

Shared concrete instantiations used to evaluate the engine. The schema
validator and codec are opaque external collaborators, so concrete runs
instantiate them trivially. -/

/-- A schema whose validator accepts every payload unchanged. -/
def trivialValidate : Payload → Except (List (String × String)) Payload :=
  fun p => .ok p

/-- A schema whose throwing `parse` accepts every payload unchanged. -/
def trivialParse : Payload → Except Exn Payload :=
  fun p => .ok p

/-- The state established by the `DataStore` constructor for a collection over
a missing file, with `email` as the unique field and `idStart` 0: empty tree
and cache, counters at −1, no file and no armed timer. -/
def freshStore : DataStore :=
  { uniques := ["email"], start := 0,
    validate := trivialValidate, parse := trivialParse,
    encodedLen := fun _ => 0,
    tree := [], cache := ⟨[], 5⟩, id := -1, lsn := -1,
    filesize := 0, lastFlushed := -1, file := [], fileExists := false,
    flushTimeout := none, timers := [], nextTimer := 0 }

/-- A sample payload with `email = 0`. -/
def p0 : Payload := [("email", 0)]

/-- A full page of `n` live records: record `i` has id `i`, LSN `i` and
`email = i`. -/
@[irreducible] def mkPage (n : Nat) : Tree :=
  (List.range n).map (fun (i : Nat) => (⟨(i : Int), (i : Int)⟩, Val.live [("email", (i : Int))]))

/-- The collection state right after the first page rotation: 1500 inserts
filled page 0, the rotation flushed it to disk and into the cache and reset
the current page (collection.ts lines 389-392). Record 0 with `email = 0` is
live, but only in the cache and the persisted page. -/
def rotatedStore : DataStore :=
  { freshStore with
    cache := ⟨[mkPage 1500], 5⟩, id := 1499, lsn := 1499,
    filesize := pagesize, lastFlushed := 1499, file := [some (mkPage 1500)],
    fileExists := true }

/-- The four-step scenario exhibiting tombstone resurrection: insert one
record, `flush()` the collection (persisting the page holding it), delete the
record, then look it up by id. Returns the pre-deletion instance reported by
the delete together with the result of the subsequent lookup. -/
def tombstoneTrace : Except String (Option Instance × Option Instance) := do
  let (_, s1) ← freshStore.insert p0
  let s2 ← s1.flush
  let (deleted, s3) ← s2.findOneAndDelete 0
  let found ← s3.findOne 0
  return (deleted, found)

/-- The state after the tombstone-resurrection scenario's delete: the current
page holds the live record at `(0, 0)` and its tombstone at `(0, 1)`, while
the flushed page 0 on disk still holds the live record. -/
def shadowedStore : DataStore :=
  { freshStore with
    tree := [(⟨0, 0⟩, .live p0), (⟨0, 1⟩, .deleted)], id := 0, lsn := 1,
    filesize := pagesize, lastFlushed := 0, file := [some [(⟨0, 0⟩, .live p0)]],
    fileExists := true, timers := [1], flushTimeout := some 1, nextTimer := 2 }

/-- A collection one entry short of rotation, with a debounced flush timer
armed by the previous mutation (timer id 0). -/
def nearFullStore : DataStore :=
  { freshStore with
    tree := mkPage 1499, id := 1498, lsn := 1498,
    timers := [0], flushTimeout := some 0, nextTimer := 1 }

/-- The state of `nearFullStore` right after `findOneAndDelete 0` places the
tombstone (LSN 1499) and before the rotation block runs. -/
def midStore : DataStore :=
  { nearFullStore with lsn := 1499, tree := (mkPage 1499).set ⟨0, 1499⟩ Val.deleted }

/-- A collection holding one live record in the current page. -/
def oneRecordStore : DataStore :=
  { freshStore with tree := [(⟨0, 0⟩, .live p0)], id := 0, lsn := 0 }

/-- A collection holding two live records with distinct unique values. -/
def twoRecordStore : DataStore :=
  { freshStore with
    tree := [(⟨0, 0⟩, .live [("email", 0)]), (⟨1, 1⟩, .live [("email", 1)])],
    id := 1, lsn := 1 }

/-- A throwing `parse` that always raises a ZodError whose single issue is
keyed `email`; the thrown error's `message` is zod's serialized issue text. -/
def zodParse : Payload → Except Exn Payload :=
  fun _ => .error ⟨some [("email", "Invalid email address")], "invalid_format"⟩

/-- A schema validator that always rejects with an issue keyed `email`. -/
def rejectValidate : Payload → Except (List (String × String)) Payload :=
  fun _ => .error [("email", "Required")]

/-- A collection flushed up to LSN 0, holding one live record, with an armed
debounced timer (id 5). -/
def flushedStore : DataStore :=
  { freshStore with
    tree := [(⟨0, 0⟩, .live p0)], id := 0, lsn := 0, lastFlushed := 0,
    filesize := pagesize, file := [some [(⟨0, 0⟩, .live p0)]], fileExists := true,
    timers := [5], flushTimeout := some 5, nextTimer := 6 }

/-- The concrete page image of an encoded byte string `[1, 2, 3]`. -/
def samplePage : List Nat :=
  le32 3 ++ [0, 0, 0, 0] ++ [1, 2, 3] ++ List.replicate (pagesize - 8 - 3) 0


/-- A collection whose schema validator rejects every payload with an issue
keyed `email`. -/
def rejectingStore : DataStore :=
  { freshStore with validate := rejectValidate }

/-- The state after one successful insert into the fresh collection. -/
def insertedStore : DataStore :=
  { freshStore with
    id := 0, lsn := 0, tree := [(⟨0, 0⟩, .live p0)],
    timers := [0], flushTimeout := some 0, nextTimer := 1 }

/-! ### Order and tree lemmas -/

theorem RKey.le_refl (a : RKey) : RKey.le a a := Or.inr ⟨rfl, le_rfl⟩

theorem RKey.le_total (a b : RKey) : RKey.le a b ∨ RKey.le b a := by
  cases a; cases b
  simp only [RKey.le]
  omega

theorem RKey.le_antisymm {a b : RKey} (h1 : RKey.le a b) (h2 : RKey.le b a) : a = b := by
  cases a; cases b
  simp only [RKey.le] at h1 h2
  simp only [RKey.mk.injEq]
  omega

theorem RKey.le_of_not_le {a b : RKey} (h : ¬ RKey.le a b) : RKey.le b a :=
  (RKey.le_total a b).resolve_left h

theorem RKey.le_of_id_lt {a b : RKey} (h : a.id < b.id) : RKey.le a b := Or.inl h

/-- A floor result is a stored entry whose key is at most the probe. -/
theorem Tree.floor_mem {t : Tree} {p : RKey} {e : RKey × Val}
    (h : Tree.floor t p = some e) : e ∈ t ∧ RKey.le e.1 p := by
  induction t with
  | nil => simp [Tree.floor] at h
  | cons a t ih =>
    rw [Tree.floor] at h
    cases hf : Tree.floor t p with
    | none =>
      rw [hf] at h
      dsimp only at h
      by_cases hc : RKey.le a.1 p
      · rw [if_pos hc] at h
        injection h with h2
        subst h2
        exact ⟨List.mem_cons_self _ _, hc⟩
      · rw [if_neg hc] at h
        cases h
    | some b =>
      rw [hf] at h
      dsimp only at h
      by_cases hc : RKey.le a.1 p ∧ ¬ RKey.le a.1 b.1
      · rw [if_pos hc] at h
        injection h with h2
        subst h2
        exact ⟨List.mem_cons_self _ _, hc.1⟩
      · rw [if_neg hc] at h
        injection h with h2
        subst h2
        rcases ih hf with ⟨hm, hl⟩
        exact ⟨List.mem_cons_of_mem _ hm, hl⟩

/-- The floor lookup returns the entry holding the greatest key at most the
probe, whenever such an entry exists and its key is unambiguous. -/
theorem Tree.floor_eq {t : Tree} {p k : RKey} {v : Val}
    (hmem : (k, v) ∈ t) (hkp : RKey.le k p)
    (hmax : ∀ e ∈ t, RKey.le e.1 p → RKey.le e.1 k)
    (huniq : ∀ e ∈ t, e.1 = k → e = (k, v)) :
    Tree.floor t p = some (k, v) := by
  induction t with
  | nil => simp at hmem
  | cons a t ih =>
    rw [Tree.floor]
    rcases List.mem_cons.mp hmem with rfl | hmem'
    · -- the target entry is at the head
      cases hf : Tree.floor t p with
      | none =>
        dsimp only
        rw [if_pos hkp]
      | some b =>
        dsimp only
        rcases Tree.floor_mem hf with ⟨hbm, hbp⟩
        by_cases hkb : RKey.le (k, v).1 b.1
        · have hbk : RKey.le b.1 (k, v).1 :=
            hmax b (List.mem_cons_of_mem _ hbm) hbp
          have hb1 : b.1 = (k, v).1 := RKey.le_antisymm hbk hkb
          have hb : b = (k, v) := huniq b (List.mem_cons_of_mem _ hbm) hb1
          have hcond : ¬ (RKey.le (k, v).1 p ∧ ¬ RKey.le (k, v).1 b.1) := fun hc => hc.2 hkb
          rw [if_neg hcond, hb]
        · rw [if_pos ⟨hkp, hkb⟩]
    · -- the target entry is in the tail
      have htail : Tree.floor t p = some (k, v) := by
        refine ih hmem' (fun e he hel => hmax e (List.mem_cons_of_mem _ he) hel)
          (fun e he hek => huniq e (List.mem_cons_of_mem _ he) hek)
      rw [htail]
      dsimp only
      by_cases hap : RKey.le a.1 p
      · have hak : RKey.le a.1 k := hmax a (List.mem_cons_self _ _) hap
        have hcond : ¬ (RKey.le a.1 p ∧ ¬ RKey.le a.1 (k, v).1) := by
          intro hc
          exact hc.2 hak
        rw [if_neg hcond]
      · have hcond : ¬ (RKey.le a.1 p ∧ ¬ RKey.le a.1 (k, v).1) := by
          intro hc
          exact hap hc.1
        rw [if_neg hcond]

/-- Membership after `set`: every entry either is the inserted pair or was
already present. -/
theorem Tree.mem_set {t : Tree} {k : RKey} {v : Val} {e : RKey × Val}
    (h : e ∈ Tree.set t k v) : e = (k, v) ∨ e ∈ t := by
  induction t with
  | nil => simpa [Tree.set] using h
  | cons a t ih =>
    rw [Tree.set] at h
    split at h
    · rcases List.mem_cons.mp h with rfl | h'
      · exact Or.inl rfl
      · exact Or.inr (List.mem_cons_of_mem _ h')
    · split at h
      · rcases List.mem_cons.mp h with rfl | h'
        · exact Or.inl rfl
        · exact Or.inr h'
      · rcases List.mem_cons.mp h with rfl | h'
        · exact Or.inr (List.mem_cons_self _ _)
        · rcases ih h' with h'' | h''
          · exact Or.inl h''
          · exact Or.inr (List.mem_cons_of_mem _ h'')

/-- The inserted pair is present after `set`. -/
theorem Tree.set_mem_self (t : Tree) (k : RKey) (v : Val) : (k, v) ∈ Tree.set t k v := by
  induction t with
  | nil => simp [Tree.set]
  | cons a t ih =>
    rw [Tree.set]
    split
    · exact List.mem_cons_self _ _
    · split
      · exact List.mem_cons_self _ _
      · exact List.mem_cons_of_mem _ ih

/-- Probing the cache after an insertion sees the inserted tree first. -/
theorem FixedArray.reversedEntries_insert (fa : FixedArray α) (x : α) :
    (fa.insert x).reversedEntries =
      x :: (if fa.entries.length ≥ fa.limit then fa.entries.drop 1 else fa.entries).reverse := by
  simp [FixedArray.insert, FixedArray.reversedEntries]


/-- Dropping the first list plus `n` more elements from an append. -/
theorem drop_length_add {α : Type} (l₁ l₂ : List α) (n : Nat) :
    (l₁ ++ l₂).drop (l₁.length + n) = l₂.drop n := by
  induction l₁ with
  | nil => simp
  | cons a t ih => simp [Nat.succ_add, ih]

/-- Every entry of `Tree.set t k v` whose key differs from `k` was in `t`. -/
theorem Tree.length_set_fresh {t : Tree} {k : RKey} {v : Val}
    (h : ∀ e ∈ t, e.1 ≠ k) : (Tree.set t k v).length = t.length + 1 := by
  induction t with
  | nil => rfl
  | cons a t ih =>
    rw [Tree.set]
    by_cases h1 : a.1 = k
    · exact absurd h1 (h a (List.mem_cons_self _ _))
    · rw [if_neg h1]
      by_cases h2 : RKey.le k a.1
      · rw [if_pos h2]
        rfl
      · rw [if_neg h2]
        simp only [List.length_cons]
        rw [ih (fun e he => h e (List.mem_cons_of_mem _ he))]

/-- Membership in a generated full page. -/
theorem mem_mkPage {n : Nat} {e : RKey × Val} :
    e ∈ mkPage n ↔ ∃ i, i < n ∧ e = (⟨(i : Int), (i : Int)⟩, Val.live [("email", (i : Int))]) := by
  simp only [mkPage, List.mem_map, List.mem_range]
  constructor
  · rintro ⟨i, hi, rfl⟩
    exact ⟨i, hi, rfl⟩
  · rintro ⟨i, hi, rfl⟩
    exact ⟨i, hi, rfl⟩

/-- A generated page of `n` records has `n` entries. -/
theorem mkPage_length (n : Nat) : (mkPage n).length = n := by
  simp [mkPage]

/-- The floor lookup of `(0, L)` in a generated page, for `L ≥ 0`, hits the
live record 0. -/
theorem floor_mkPage_zero (n : Nat) (hn : 0 < n) (L : Int) (hL : 0 ≤ L) :
    Tree.floor (mkPage n) ⟨0, L⟩ = some (⟨0, 0⟩, .live [("email", 0)]) := by
  apply Tree.floor_eq
  · exact mem_mkPage.mpr ⟨0, hn, by simp⟩
  · exact Or.inr ⟨rfl, hL⟩
  · intro e he hel
    obtain ⟨i, hi, rfl⟩ := mem_mkPage.mp he
    rcases hel with h | ⟨h1, h2⟩
    · exact absurd h (by simp [Int.natCast_nonneg])
    · simp only at h1
      rw [h1]
      exact Or.inr ⟨rfl, by simp [← h1]⟩
  · intro e he hek
    obtain ⟨i, hi, rfl⟩ := mem_mkPage.mp he
    simp only [RKey.mk.injEq] at hek
    have : (i : Int) = 0 := hek.1
    have hi0 : i = 0 := by exact_mod_cast this
    subst hi0
    rfl

/-- The point lookup when the current page's floor probe hits a live record
with the searched id. -/
theorem DataStore.findOne_memory_hit {s : DataStore} {i l : Int} {p : Payload}
    (h0 : 0 ≤ i) (hle : i ≤ s.id)
    (hf : Tree.floor s.tree ⟨i, s.lsn⟩ = some (⟨i, l⟩, .live p)) :
    s.findOne i = .ok (some ⟨p, i⟩) := by
  have hrec : findRecordById s.tree i s.lsn = some ⟨p, i⟩ := by
    unfold findRecordById
    rw [hf]
    simp
  unfold DataStore.findOne IDparse
  rw [if_neg (by omega : ¬ i < 0)]
  dsimp only
  rw [if_neg (by omega : ¬ i > s.id), hrec]

/-- `findOneAndDelete` after a successful lookup places the tombstone at the
next LSN and applies the rotation block to the resulting state. -/
theorem DataStore.findOneAndDelete_found {s : DataStore} {i : Int} {found : Instance}
    (hf : s.findOne i = .ok (some found)) :
    s.findOneAndDelete i =
      Except.map (fun s3 => (some found, s3))
        (rotateOrArm { s with lsn := s.lsn + 1,
                              tree := s.tree.set ⟨found.id, s.lsn + 1⟩ .deleted }) := by
  unfold DataStore.findOneAndDelete
  rw [hf]
  dsimp only
  cases rotateOrArm { s with lsn := s.lsn + 1,
                             tree := s.tree.set ⟨found.id, s.lsn + 1⟩ .deleted } <;> rfl

/-- The rotation branch of the page-rotation block, spelled out: when the tree
has reached `TREE_SIZE` (and the flush guards pass), the page is flushed to its
LSN-derived slot, inserted into the cache, and the tree is reset — the timer
fields are untouched. -/
theorem rotateOrArm_rotation {s : DataStore}
    (hsize : treesize ≤ s.tree.size)
    (hlsn : 0 ≤ s.lsn) (hlf : s.lastFlushed < s.lsn)
    (henc : s.encodedLen s.tree ≤ pagesize - 8)
    (hpos : 0 ≤ s.positionOf s.lsn) :
    rotateOrArm s = .ok { s with
      fileExists := true,
      file := setSlot s.file ((s.positionOf s.lsn).toNat / pagesize) s.tree,
      filesize := if (s.positionOf s.lsn).toNat + pagesize > s.filesize
                  then (s.positionOf s.lsn).toNat + pagesize else s.filesize,
      lastFlushed := s.lsn,
      cache := s.cache.insert s.tree, tree := [] } := by
  have hpos' : ¬ (max 0 s.lsn - s.start).fdiv (treesize : Int) * (pagesize : Int) < 0 := by
    unfold DataStore.positionOf at hpos
    exact not_lt.mpr hpos
  unfold rotateOrArm
  rw [if_pos hsize]
  unfold DataStore.flushInternal LSNparse
  rw [if_neg (by omega : ¬ s.lsn < 0)]
  dsimp only [DataStore.positionOf]
  rw [if_neg (by omega : ¬ s.lastFlushed ≥ s.lsn),
      if_neg (by omega : ¬ s.encodedLen s.tree > pagesize - 8),
      if_neg hpos']

/-- The arming branch of the page-rotation block: below `TREE_SIZE` a fresh
debounced timer is armed, previously armed timers staying pending. -/
theorem rotateOrArm_arm {s : DataStore} (hsize : s.tree.size < treesize) :
    rotateOrArm s = .ok s.armTimer ∧
    s.armTimer.timers = s.timers ++ [s.nextTimer] ∧
    s.armTimer.flushTimeout = some s.nextTimer := by
  refine ⟨?_, rfl, rfl⟩
  unfold rotateOrArm
  rw [if_neg (by omega : ¬ s.tree.size ≥ treesize)]

/-! ### Claim theorems (first batch) -/

/-- C10: Calling `flush()` on a collection in which no LSN has ever been
allocated (`max_lsn = −1`, the freshly constructed empty collection) throws
the `"Invalid LSN"` validation error instead of completing as a no-op, because
`#flush` validates the requested LSN as a non-negative number before comparing
it with `last_flushed_lsn`. -/
theorem flush_fresh_invalid_lsn : freshStore.flush = .error ("Invalid LSN") := rfl

/-- C9: Insert is atomic on failure — for every payload that fails schema
validation or the uniqueness scan, `insert` returns the structured failure
(keyed by the offending or conflicting field) with the collection state
returned entirely unchanged: no id or LSN is allocated, the current page gains
no entry, and no flush timer is armed by that call. -/
theorem insert_atomic_on_failure (s : DataStore) (x : Payload) :
    (∀ issues, s.validate x = .error issues →
      s.insert x = .ok (.error (schemaFailure issues), s)) ∧
    (∀ px u, s.validate x = .ok px → s.checkUniques px none = some u →
      s.insert x = .ok (.error (uniqueConflictFailure u), s)) := by
  constructor
  · intro issues h
    unfold DataStore.insert
    rw [h]
  · intro px u hv hc
    unfold DataStore.insert
    rw [hv]
    dsimp only
    rw [hc]

/-- Witness for C9: a rejected payload and a unique-conflicting payload both
leave their concrete collections untouched. -/
theorem insert_atomic_on_failure_witness :
    rejectingStore.insert p0 = .ok (.error (schemaFailure [("email", "Required")]), rejectingStore) ∧
    twoRecordStore.insert [("email", 0)] =
      .ok (.error (uniqueConflictFailure ("email")), twoRecordStore) :=
  ⟨(insert_atomic_on_failure rejectingStore p0).1 [("email", "Required")] rfl,
   (insert_atomic_on_failure twoRecordStore [("email", 0)]).2 [("email", 0)] ("email") rfl rfl⟩

/-- C8: For every page write, the flusher raises the fatal error if and only
if the encoded tree's length exceeds `PAGE_SIZE − 8`; otherwise it produces
exactly one zero-filled `PAGE_SIZE` buffer carrying the little-endian u32
length at offset 0 and the encoded bytes starting at offset 8, written at a
page-aligned position (every LSN-derived position is a multiple of
`PAGE_SIZE`), never a partial page. -/
theorem page_write_layout (encoded buf : List Nat) :
    (writePageBuffer encoded = .error ("Encoded tree too large for page") ↔
      pagesize - 8 < encoded.length) ∧
    (writePageBuffer encoded = .ok buf →
      buf.length = pagesize ∧
      buf.take 4 = le32 encoded.length ∧
      (buf.drop 4).take 4 = [0, 0, 0, 0] ∧
      (buf.drop 8).take encoded.length = encoded ∧
      (∀ b ∈ buf.drop (8 + encoded.length), b = 0)) ∧
    (∀ (s : DataStore) (lsn : Int), s.positionOf lsn % (pagesize : Int) = 0) := by
  refine ⟨?_, ?_, ?_⟩
  · unfold writePageBuffer
    by_cases h : encoded.length > pagesize - 8
    · simp [h]
    · simp [h]
  · intro h
    unfold writePageBuffer at h
    by_cases hlen : encoded.length > pagesize - 8
    · rw [if_pos hlen] at h
      cases h
    · rw [if_neg hlen] at h
      injection h with h
      subst h
      refine ⟨?_, ?_, ?_, ?_, ?_⟩
      · simp only [List.length_append, List.length_replicate, le32, List.length_cons,
          List.length_nil]
        unfold pagesize at hlen ⊢
        omega
      · rfl
      · rfl
      · show List.take encoded.length
            (encoded ++ List.replicate (pagesize - 8 - encoded.length) 0) = encoded
        exact List.take_left _ _
      · intro b hb
        have hdd : (le32 encoded.length ++ [0, 0, 0, 0] ++ encoded ++
            List.replicate (pagesize - 8 - encoded.length) 0).drop (8 + encoded.length) =
            List.replicate (pagesize - 8 - encoded.length) 0 := by
          show List.drop ((le32 encoded.length ++ [0, 0, 0, 0]).length + encoded.length)
            ((le32 encoded.length ++ [0, 0, 0, 0]) ++
              (encoded ++ List.replicate (pagesize - 8 - encoded.length) 0)) =
            List.replicate (pagesize - 8 - encoded.length) 0
          rw [drop_length_add]
          exact List.drop_left _ _
        rw [hdd] at hb
        exact (List.eq_of_mem_replicate hb)
  · intro s lsn
    unfold DataStore.positionOf
    exact Int.mul_emod_left _ _

/-- Witness for C8 at the concrete encoded byte string `[1, 2, 3]`. -/
theorem page_write_layout_witness :
    writePageBuffer [1, 2, 3] = .ok samplePage ∧ samplePage.length = pagesize :=
  ⟨rfl, ((page_write_layout [1, 2, 3] samplePage).2.1 rfl).1⟩

/-- C1 (code bug, evaluated at the failing input): in the state right after
the first page rotation, the persisted page 0 holds a live record with
`email = 0` for id 0 (its floor lookup confirms this), yet inserting another
payload with `email = 0` succeeds with fresh id 1500 instead of failing with a
field error keyed `email` — the uniqueness scan's disk phase starts at
`position(max_lsn) − filesize < 0` and never reads a page, and the cache is
not scanned at all. -/
theorem uniqueness_scan_misses_disk :
    Tree.floor (mkPage 1500) ⟨0, 1499⟩ = some (⟨0, 0⟩, .live [("email", 0)]) ∧
    rotatedStore.file = [some (mkPage 1500)] ∧
    Except.map (fun r => r.1) (rotatedStore.insert [("email", 0)]) =
      .ok (.ok ⟨[("email", 0)], 1500⟩) := by
  refine ⟨floor_mkPage_zero 1500 (by norm_num) 1499 (by norm_num), rfl, rfl⟩

/-- C6 (code bug, evaluated at the failing input): insert one record, flush
the collection, then `findOneAndDelete(0)` — it returns the pre-deletion
instance, but the subsequent `findOne(0)` returns that same live instance read
back from the flushed page instead of none: the tombstone floor hit in the
current page does not stop the probe, which continues into the file. -/
theorem tombstone_resurrection :
    tombstoneTrace = .ok (some ⟨p0, 0⟩, some ⟨p0, 0⟩) := rfl

/-- Counterexample to C2 as stated: in `shadowedStore` the floor lookup of
`(0, snapshot LSN)` in the current page yields the key `(0, 1)` with the
DELETED marker, yet `findOne 0` returns a live instance rather than none. -/
theorem point_lookup_deleted_not_none :
    Tree.floor shadowedStore.tree ⟨0, shadowedStore.lsn⟩ = some (⟨0, 1⟩, .deleted) ∧
    shadowedStore.findOne 0 = .ok (some ⟨p0, 0⟩) := ⟨rfl, rfl⟩

/-- Counterexample to C4 as stated: an iteration of `findAndUpdate` whose
re-validation raises a ZodError keyed `email` yields a returned failure keyed
`general` (carrying the error message), not one keyed by the field; and an
iteration that detects a uniqueness conflict does not yield that conflict —
the call returns success with an empty result list. -/
theorem findAndUpdate_failure_shape :
    (({ oneRecordStore with parse := zodParse }).findAndUpdate none (fun m => .ok m)).1 =
      .error (.general ("invalid_format")) ∧
    (twoRecordStore.findAndUpdate (some (fun _ i => i == 1))
      (fun m => .ok ⟨[("email", 0)], m.id⟩)).1 = .ok [] := ⟨rfl, rfl⟩

/-- Counterexample to C5 as stated: in `nearFullStore` a timer (id 0) is
armed; `findOneAndDelete 0` fills the page to `TREE_SIZE`, the rotation
flushes (`lastFlushed` becomes 1499) and resets the page, but the armed timer
is still pending afterwards — the rotation branch contains no `clearTimeout`. -/
theorem rotation_keeps_timer :
    Except.map (fun r => (r.2.tree, r.2.timers, r.2.lastFlushed, r.2.flushTimeout))
      (nearFullStore.findOneAndDelete 0) = .ok (([], [0], 1499, some 0)) := by
  have hfind : nearFullStore.findOne 0 = .ok (some ⟨[("email", 0)], 0⟩) := by
    apply DataStore.findOne_memory_hit (l := 0) (by decide) (by decide)
    have ht : nearFullStore.tree = mkPage 1499 := rfl
    have hl : nearFullStore.lsn = 1498 := rfl
    rw [ht, hl]
    exact floor_mkPage_zero 1499 (by norm_num) 1498 (by norm_num)
  rw [DataStore.findOneAndDelete_found hfind]
  show Except.map (fun r => (r.2.tree, r.2.timers, r.2.lastFlushed, r.2.flushTimeout))
      (Except.map (fun s3 => (some (⟨[("email", 0)], 0⟩ : Instance), s3))
        (rotateOrArm midStore)) = .ok (([], [0], 1499, some 0))
  have hlen : treesize ≤ Tree.size midStore.tree := by
    have ht : midStore.tree = (mkPage 1499).set ⟨0, 1499⟩ Val.deleted := rfl
    rw [ht]
    show treesize ≤ ((mkPage 1499).set ⟨0, 1499⟩ Val.deleted).length
    have hfresh : ∀ e ∈ mkPage 1499, (e : RKey × Val).1 ≠ (⟨0, 1499⟩ : RKey) := by
      intro e he h1
      obtain ⟨i, hi, rfl⟩ := mem_mkPage.mp he
      dsimp only at h1
      rw [RKey.mk.injEq] at h1
      omega
    rw [Tree.length_set_fresh hfresh, mkPage_length]
    decide
  rw [rotateOrArm_rotation hlen (by decide) (by decide) (by decide) (by decide)]
  rfl

/-- Counterexample to C7 as stated: on the freshly constructed collection
`last_flushed_lsn ≥ max_lsn` holds, yet `flush()` is not a no-op — it throws
`"Invalid LSN"` because the internal flush validates the LSN first. -/
theorem flush_not_noop_on_fresh :
    freshStore.lastFlushed ≥ freshStore.lsn ∧
    freshStore.flush = .error ("Invalid LSN") := ⟨by decide, rfl⟩

/-! ### Inversion and helper lemmas for the universal theorems -/

/-- `clearTimeout` touches only the pending-timer list. -/
theorem DataStore.clearTimer_fields (s : DataStore) :
    s.clearTimer.lsn = s.lsn ∧ s.clearTimer.lastFlushed = s.lastFlushed ∧
    s.clearTimer.tree = s.tree ∧ s.clearTimer.id = s.id ∧
    s.clearTimer.flushTimeout = s.flushTimeout := by
  unfold DataStore.clearTimer
  cases h : s.flushTimeout with
  | none => exact ⟨rfl, rfl, rfl, rfl, h⟩
  | some t => exact ⟨rfl, rfl, rfl, rfl, rfl⟩

/-- Full inversion of a completed `#flush`: the LSN was valid, the in-memory
page, cache, counters and timer fields are untouched, and either the call
no-opped (`lastFlushed` already at the requested LSN) or it advanced
`lastFlushed` to it. -/
theorem DataStore.flushInternal_spec {s s2 : DataStore} {l : Int}
    (h : s.flushInternal l = .ok s2) :
    0 ≤ l ∧ s2.tree = s.tree ∧ s2.cache = s.cache ∧ s2.id = s.id ∧ s2.lsn = s.lsn ∧
    s2.timers = s.timers ∧ s2.flushTimeout = s.flushTimeout ∧ s2.nextTimer = s.nextTimer ∧
    ((l ≤ s.lastFlushed ∧ s2 = s) ∨ (s.lastFlushed < l ∧ s2.lastFlushed = l)) := by
  unfold DataStore.flushInternal LSNparse at h
  by_cases h0 : l < 0
  · rw [if_pos h0] at h
    cases h
  · rw [if_neg h0] at h
    dsimp only at h
    by_cases h1 : s.lastFlushed ≥ l
    · rw [if_pos h1] at h
      injection h with h
      subst h
      exact ⟨by omega, rfl, rfl, rfl, rfl, rfl, rfl, rfl, Or.inl ⟨h1, rfl⟩⟩
    · rw [if_neg h1] at h
      dsimp only [DataStore.positionOf] at h
      by_cases h2 : s.encodedLen s.tree > pagesize - 8
      · rw [if_pos h2] at h
        cases h
      · rw [if_neg h2] at h
        by_cases h3 : (max 0 l - s.start).fdiv (treesize : Int) * (pagesize : Int) < 0
        · rw [if_pos h3] at h
          cases h
        · rw [if_neg h3] at h
          injection h with h
          subst h
          exact ⟨by omega, rfl, rfl, rfl, rfl, rfl, rfl, rfl, Or.inr ⟨by omega, rfl⟩⟩

/-- Inversion of a completed page-rotation block: the counters are untouched
and either the tree rotated into the cache or the state just armed a timer. -/
theorem rotateOrArm_cases {s s2 : DataStore} (h : rotateOrArm s = .ok s2) :
    s2.id = s.id ∧ s2.lsn = s.lsn ∧
    ((s2.tree = s.tree ∧ s2.cache = s.cache ∧ s.tree.size < treesize) ∨
     (s2.tree = [] ∧ s2.cache = s.cache.insert s.tree ∧ treesize ≤ s.tree.size)) := by
  unfold rotateOrArm at h
  by_cases hs : s.tree.size ≥ treesize
  · rw [if_pos hs] at h
    cases hf : s.flushInternal s.lsn with
    | error e =>
      rw [hf] at h
      cases h
    | ok sf =>
      rw [hf] at h
      injection h with h
      subst h
      obtain ⟨_, ht, hc, hid, hlsn, -⟩ := DataStore.flushInternal_spec hf
      exact ⟨hid, hlsn, Or.inr ⟨rfl, by rw [hc, ht], hs⟩⟩
  · rw [if_neg hs] at h
    injection h with h
    subst h
    exact ⟨rfl, rfl, Or.inl ⟨rfl, rfl, by omega⟩⟩

/-- The point lookup when the current page yields no answer and the newest
cache entry's floor probe hits a live record with the searched id. -/
theorem DataStore.findOne_cache_hit {s : DataStore} {i l : Int} {p : Payload}
    {t : Tree} {rest : List Tree}
    (h0 : 0 ≤ i) (hle : i ≤ s.id)
    (hm : findRecordById s.tree i s.lsn = none)
    (hc : s.cache.reversedEntries = t :: rest)
    (hf : Tree.floor t ⟨i, s.lsn⟩ = some (⟨i, l⟩, .live p)) :
    s.findOne i = .ok (some ⟨p, i⟩) := by
  have hrec : findRecordById t i s.lsn = some ⟨p, i⟩ := by
    unfold findRecordById
    rw [hf]
    simp
  unfold DataStore.findOne IDparse
  rw [if_neg (by omega : ¬ i < 0)]
  dsimp only
  rw [if_neg (by omega : ¬ i > s.id), hm, hc, List.findSome?_cons]
  rw [hrec]

/-- The disk walk of the point lookup equals the first hit over the descending
page list. -/
theorem findPages_eq (file : List (Option Tree)) (search lsn : Int) (idx : Nat) :
    findPages file search lsn idx =
      (pagesDescending file idx).findSome? (fun t => findRecordById t search lsn) := by
  induction idx with
  | zero =>
    rw [findPages, pagesDescending]
    cases file.getD 0 none with
    | none => rfl
    | some t =>
      dsimp only [Option.toList]
      rw [List.findSome?_cons]
      cases findRecordById t search lsn <;> rfl
  | succ n ih =>
    rw [findPages, pagesDescending]
    cases file.getD (n + 1) none with
    | none =>
      dsimp only [Option.toList]
      rw [List.nil_append, ih]
    | some t =>
      dsimp only [Option.toList]
      rw [List.cons_append, List.findSome?_cons]
      cases findRecordById t search lsn with
      | none => exact ih
      | some m => rfl

/-- Once the `findAndUpdate` loop has captured a failure, the remaining
iterations change nothing. -/
theorem faULoop_stops (updater : Instance → Except Exn Instance)
    (acc : DataStore × Option Errs × List Instance) (ms : List Instance)
    (h : acc.2.1.isSome = true) : faULoop updater acc ms = acc := by
  induction ms with
  | nil => rfl
  | cons m ms ih =>
    rw [faULoop]
    dsimp only
    rw [if_pos h]
    exact ih

/-- A `findAndUpdate` iteration whose updater throws records the exception as
a general failure and changes nothing else. -/
theorem faUIter_updater_throws (s : DataStore) (updater : Instance → Except Exn Instance)
    (m : Instance) (e : Exn) (hu : updater m = .error e) :
    faUIter s updater m = (s, some (.general e.message), none) := by
  unfold faUIter
  rw [hu]
  rfl

/-- A `findAndUpdate` iteration whose re-validation throws (in particular a
ZodError) records the exception as a general failure — not a field-keyed one —
and changes nothing else. -/
theorem faUIter_parse_throws (s : DataStore) (updater : Instance → Except Exn Instance)
    (m u : Instance) (e : Exn) (hu : updater m = .ok u)
    (hp : s.parse u.data = .error e) :
    faUIter s updater m = (s, some (.general e.message), none) := by
  unfold faUIter
  rw [hu]
  dsimp only
  rw [hp]
  rfl

/-- A `findAndUpdate` iteration that detects a uniqueness conflict records
neither a failure nor a result and performs no write. -/
theorem faUIter_conflict (s : DataStore) (updater : Instance → Except Exn Instance)
    (m u : Instance) (rec : Payload) (q : String) (hu : updater m = .ok u)
    (hp : s.parse u.data = .ok rec) (hq : s.checkUniques rec (some m.id) = some q) :
    faUIter s updater m = (s, none, none) := by
  unfold faUIter
  rw [hu]
  dsimp only
  rw [hp]
  dsimp only
  rw [hq]

/-- Inversion of a successful insert: validation passed, no conflict, and the
result is the rotation block applied to the state holding the new live entry
at the freshly allocated key. -/
theorem DataStore.insert_ok_inv {s s' : DataStore} {x px : Payload} {inst : Instance}
    (hv : s.validate x = .ok px) (hc : s.checkUniques px none = none)
    (h : s.insert x = .ok (.ok inst, s')) :
    ∃ s3, rotateOrArm { s with
        lsn := s.lsn + 1, id := s.id + 1,
        tree := s.tree.set ⟨s.id + 1, s.lsn + 1⟩ (.live px) } = .ok s3 ∧
      s' = s3 ∧ inst = ⟨px, s3.id⟩ := by
  unfold DataStore.insert at h
  rw [hv] at h
  dsimp only at h
  rw [hc] at h
  dsimp only at h
  cases hr : rotateOrArm { s with
      lsn := s.lsn + 1, id := s.id + 1,
      tree := s.tree.set ⟨s.id + 1, s.lsn + 1⟩ (.live px) } with
  | error e =>
    rw [hr] at h
    cases h
  | ok s3 =>
    rw [hr] at h
    dsimp only at h
    injection h with h
    rw [Prod.mk.injEq] at h
    obtain ⟨h1, h2⟩ := h
    injection h1 with h1
    exact ⟨s3, rfl, h2.symm, h1.symm⟩

/-- C2 (amended): the point lookup, for a validated id, equals its
specification form — none beyond `max_id`, otherwise the first live floor hit
over the probed trees in order (current page, cache newest-first without MRU
promotion, disk pages from the LSN-derived position downwards); a DELETED
floor hit yields no answer from its tree and probing continues. -/
theorem findOne_eq_findOneSpec (s : DataStore) (search : Int) :
    s.findOne search = s.findOneSpec search := by
  unfold DataStore.findOne DataStore.findOneSpec
  cases IDparse search with
  | error e => rfl
  | ok i =>
    dsimp only
    by_cases hgt : i > s.id
    · rw [if_pos hgt, if_pos hgt]
    · rw [if_neg hgt, if_neg hgt]
      unfold DataStore.probeTrees
      rw [List.findSome?_cons]
      cases hm : findRecordById s.tree i s.lsn with
      | some found => rfl
      | none =>
        rw [List.findSome?_append]
        cases hcc : s.cache.reversedEntries.findSome? (fun t => findRecordById t i s.lsn) with
        | some found => rfl
        | none =>
          dsimp only [Option.orElse]
          unfold DataStore.diskTrees
          by_cases hfe : ¬ s.fileExists
          · rw [if_pos hfe, if_pos hfe]
            rfl
          · rw [if_neg hfe, if_neg hfe]
            dsimp only
            by_cases hp1 : s.positionOf s.lsn > (s.filesize : Int)
            · rw [if_pos hp1, if_pos hp1]
              rfl
            · rw [if_neg hp1, if_neg hp1]
              by_cases hp2 : s.positionOf s.lsn < 0
              · rw [if_pos hp2, if_pos hp2]
                rfl
              · rw [if_neg hp2, if_neg hp2, findPages_eq]
                rfl

/-- C3: For every payload accepted by the schema and causing no uniqueness
conflict, a successful `insert` returns an instance carrying the validated
payload and the fresh id `max_id + 1` — an id used by no existing entry — and
a subsequent `findOne` of that id returns that same instance, whether the new
entry stayed in the current page or was just rotated into the cache. -/
theorem insert_findOne_roundtrip (s s' : DataStore) (x px : Payload) (inst : Instance)
    (hid : -1 ≤ s.id)
    (hkeys : ∀ e ∈ s.tree, (e : RKey × Val).1.id ≤ s.id)
    (hv : s.validate x = .ok px)
    (h : s.insert x = .ok (.ok inst, s')) :
    inst = ⟨px, s.id + 1⟩ ∧
    (∀ e ∈ s.tree, (e : RKey × Val).1.id ≠ s.id + 1) ∧
    s'.findOne (s.id + 1) = .ok (some ⟨px, s.id + 1⟩) := by
  have hfresh : ∀ e ∈ s.tree, (e : RKey × Val).1.id ≠ s.id + 1 := by
    intro e he
    have := hkeys e he
    omega
  cases hc : s.checkUniques px none with
  | some u =>
    exfalso
    unfold DataStore.insert at h
    rw [hv] at h
    dsimp only at h
    rw [hc] at h
    simp at h
  | none =>
    obtain ⟨s3, hr, rfl, hinst⟩ := DataStore.insert_ok_inv hv hc h
    obtain ⟨hid3, hlsn3, hcase⟩ := rotateOrArm_cases hr
    have hsid : s'.id = s.id + 1 := hid3.trans rfl
    have hslsn : s'.lsn = s.lsn + 1 := hlsn3.trans rfl
    have hfloor : Tree.floor (s.tree.set ⟨s.id + 1, s.lsn + 1⟩ (.live px))
        ⟨s.id + 1, s.lsn + 1⟩ = some (⟨s.id + 1, s.lsn + 1⟩, .live px) := by
      apply Tree.floor_eq (Tree.set_mem_self _ _ _) (RKey.le_refl _)
      · intro e he hel
        rcases Tree.mem_set he with rfl | he'
        · exact RKey.le_refl _
        · refine RKey.le_of_id_lt ?_
          have := hkeys e he'
          dsimp only
          omega
      · intro e he hek
        rcases Tree.mem_set he with rfl | he'
        · rfl
        · exfalso
          have h1 := hkeys e he'
          rw [hek] at h1
          dsimp only at h1
          omega
    refine ⟨hinst.trans (by rw [hsid]), hfresh, ?_⟩
    rcases hcase with ⟨htree, hcache, hsmall⟩ | ⟨htree, hcache, hbig⟩
    · -- the entry stayed in the current page
      apply DataStore.findOne_memory_hit (l := s.lsn + 1) (by omega) (by omega)
      have htree' : s'.tree = s.tree.set ⟨s.id + 1, s.lsn + 1⟩ (.live px) := htree.trans rfl
      rw [htree', hslsn]
      exact hfloor
    · -- the entry rotated into the cache
      have hcache' : s'.cache = s.cache.insert (s.tree.set ⟨s.id + 1, s.lsn + 1⟩ (.live px)) :=
        hcache.trans rfl
      have hcrev : s'.cache.reversedEntries =
          (s.tree.set ⟨s.id + 1, s.lsn + 1⟩ (.live px)) ::
            (if s.cache.entries.length ≥ s.cache.limit then s.cache.entries.drop 1
             else s.cache.entries).reverse := by
        rw [hcache', FixedArray.reversedEntries_insert]
      have hf2 : Tree.floor (s.tree.set ⟨s.id + 1, s.lsn + 1⟩ (.live px))
          ⟨s.id + 1, s'.lsn⟩ = some (⟨s.id + 1, s.lsn + 1⟩, .live px) := by
        rw [hslsn]
        exact hfloor
      have hm2 : findRecordById s'.tree (s.id + 1) s'.lsn = none := by
        rw [htree]
        rfl
      exact DataStore.findOne_cache_hit (by omega) (by omega) hm2 hcrev hf2

/-- Witness for C3: inserting `p0` into the fresh collection yields id 0 and
`findOne 0` returns it. -/
theorem insert_findOne_roundtrip_witness :
    insertedStore.findOne 0 = .ok (some ⟨p0, 0⟩) := by
  have h := insert_findOne_roundtrip freshStore insertedStore p0 p0 ⟨p0, 0⟩ (by decide)
    (fun e he => absurd he (List.not_mem_nil e)) rfl rfl
  exact h.2.2

/-- C4 (amended): in `findAndUpdate`, once a failure is captured the remaining
iterations perform no work and the captured failure is returned; an iteration
whose updater or re-validation throws — a ZodError included — captures the
exception as a failure keyed `general` carrying its message (the field-keyed
schema failure is overwritten by the unconditional assignment), leaving the
state unchanged; and an iteration that detects a uniqueness conflict records
neither a failure nor a result (the conflict is silently swallowed): in
particular, when the first match's updater throws, the call returns that
general failure. -/
theorem findAndUpdate_amended :
    (∀ (updater : Instance → Except Exn Instance) (acc : DataStore × Option Errs × List Instance)
      (ms : List Instance), acc.2.1.isSome = true → faULoop updater acc ms = acc) ∧
    (∀ (s : DataStore) (updater : Instance → Except Exn Instance) (m : Instance) (e : Exn),
      updater m = .error e → faUIter s updater m = (s, some (.general e.message), none)) ∧
    (∀ (s : DataStore) (updater : Instance → Except Exn Instance) (m u : Instance) (e : Exn),
      updater m = .ok u → s.parse u.data = .error e →
      faUIter s updater m = (s, some (.general e.message), none)) ∧
    (∀ (s : DataStore) (updater : Instance → Except Exn Instance) (m u : Instance)
      (rec : Payload) (q : String), updater m = .ok u → s.parse u.data = .ok rec →
      s.checkUniques rec (some m.id) = some q → faUIter s updater m = (s, none, none)) ∧
    (∀ (s : DataStore) (pred : Option Pred) (updater : Instance → Except Exn Instance)
      (m : Instance) (ms : List Instance) (e : Exn),
      s.find pred {} = some (m :: ms) → updater m = .error e →
      (s.findAndUpdate pred updater).1 = .error (.general e.message)) := by
  refine ⟨faULoop_stops, faUIter_updater_throws, faUIter_parse_throws, faUIter_conflict, ?_⟩
  intro s pred updater m ms e hfind hu
  unfold DataStore.findAndUpdate
  rw [hfind]
  dsimp only
  rw [faULoop]
  dsimp only
  rw [faUIter_updater_throws s.clearTimer updater m e hu]
  rw [if_neg (by simp : ¬ ((none : Option Errs).isSome = true))]
  dsimp only [Option.toList]
  rw [List.append_nil]
  rw [faULoop_stops updater (s.clearTimer, some (.general e.message), []) ms rfl]

/-- Witness for C4: a single-match `findAndUpdate` whose updater throws
returns the general failure carrying the exception message. -/
theorem findAndUpdate_amended_witness :
    (oneRecordStore.findAndUpdate none (fun _ => .error ⟨none, ("boom")⟩)).1 =
      .error (.general ("boom")) :=
  findAndUpdate_amended.2.2.2.2 oneRecordStore none (fun _ => .error ⟨none, ("boom")⟩)
    ⟨p0, 0⟩ [] ⟨none, ("boom")⟩ rfl rfl

/-- C5 (amended): after every mutation (insert, findOneAndUpdate,
findOneAndDelete) that leaves the page at `TREE_SIZE`, the engine synchronously
flushes the page to its LSN-derived file slot, inserts it into the cache and
replaces it with a new empty page, leaving every armed debounced timer pending
(nothing is cancelled: the timer fields are untouched); below `TREE_SIZE` it
instead arms a fresh 30-second debounced timer, previously armed timers also
staying pending; each of the three mutations applies exactly this block to the
state holding its new entry. -/
theorem rotation_protocol_amended :
    (∀ s : DataStore, treesize ≤ s.tree.size → 0 ≤ s.lsn → s.lastFlushed < s.lsn →
      s.encodedLen s.tree ≤ pagesize - 8 → 0 ≤ s.positionOf s.lsn →
      rotateOrArm s = .ok { s with
        fileExists := true,
        file := setSlot s.file ((s.positionOf s.lsn).toNat / pagesize) s.tree,
        filesize := if (s.positionOf s.lsn).toNat + pagesize > s.filesize
                    then (s.positionOf s.lsn).toNat + pagesize else s.filesize,
        lastFlushed := s.lsn,
        cache := s.cache.insert s.tree, tree := [] }) ∧
    (∀ s : DataStore, s.tree.size < treesize →
      rotateOrArm s = .ok s.armTimer ∧
      s.armTimer.timers = s.timers ++ [s.nextTimer]) ∧
    (∀ (s : DataStore) (x px : Payload), s.validate x = .ok px →
      s.checkUniques px none = none →
      s.insert x = Except.map (fun s3 => (Except.ok ⟨px, s3.id⟩, s3))
        (rotateOrArm { s with
          lsn := s.lsn + 1, id := s.id + 1,
          tree := s.tree.set ⟨s.id + 1, s.lsn + 1⟩ (.live px) })) ∧
    (∀ (s : DataStore) (i : Int) (found : Instance), s.findOne i = .ok (some found) →
      s.findOneAndDelete i = Except.map (fun s3 => (some found, s3))
        (rotateOrArm { s with
          lsn := s.lsn + 1, tree := s.tree.set ⟨found.id, s.lsn + 1⟩ .deleted })) ∧
    (∀ (s : DataStore) (i : Int) (found updated : Instance)
      (updater : Instance → Except Exn Instance) (record : Payload),
      s.findOne i = .ok (some found) → updater found = .ok updated →
      s.parse updated.data = .ok record → s.checkUniques record (some updated.id) = none →
      s.findOneAndUpdate i updater = .ok (match rotateOrArm { s with
          lsn := s.lsn + 1, tree := s.tree.set ⟨found.id, s.lsn + 1⟩ (.live record) } with
        | .ok s3 => (.ok updated, s3)
        | .error msg => (.error (.general msg), { s with
            lsn := s.lsn + 1, tree := s.tree.set ⟨found.id, s.lsn + 1⟩ (.live record) }))) := by
  refine ⟨?_, ?_, ?_, ?_, ?_⟩
  · intro s h1 h2 h3 h4 h5
    exact rotateOrArm_rotation h1 h2 h3 h4 h5
  · intro s h1
    exact ⟨(rotateOrArm_arm h1).1, (rotateOrArm_arm h1).2.1⟩
  · intro s x px hv hc
    unfold DataStore.insert
    rw [hv]
    dsimp only
    rw [hc]
    dsimp only
    cases rotateOrArm { s with
        lsn := s.lsn + 1, id := s.id + 1,
        tree := s.tree.set ⟨s.id + 1, s.lsn + 1⟩ (.live px) } <;> rfl
  · intro s i found hf
    exact DataStore.findOneAndDelete_found hf
  · intro s i found updated updater record hf hu hp hc
    unfold DataStore.findOneAndUpdate
    rw [hf]
    dsimp only
    rw [hu]
    dsimp only
    rw [hp]
    dsimp only
    rw [hc]
    dsimp only
    cases rotateOrArm { s with
        lsn := s.lsn + 1, tree := s.tree.set ⟨found.id, s.lsn + 1⟩ (.live record) } <;> rfl

/-- Witness for C5 at the fresh collection: below `TREE_SIZE` the block arms
timer 0, and an insert applies the block to the one-entry state. -/
theorem rotation_protocol_amended_witness :
    rotateOrArm freshStore = .ok freshStore.armTimer ∧
    freshStore.armTimer.timers = [0] := by
  have h := rotation_protocol_amended.2.1 freshStore (by decide)
  exact ⟨h.1, h.2.trans rfl⟩

/-- C7 (amended): `flush()` cancels the armed debounced timer and performs
`#flush(max_lsn)`; whenever it completes (under the invariant
`last_flushed_lsn ≤ max_lsn`), `max_lsn = last_flushed_lsn` holds afterwards
and the counters are unchanged; and the internal flush is a no-op exactly when
the requested LSN is valid (non-negative) and `last_flushed_lsn` already
reaches it — with `max_lsn = −1` it instead throws (see the counterexample). -/
theorem flush_amended (s : DataStore) :
    (∀ s2, s.lastFlushed ≤ s.lsn → s.flush = .ok s2 →
      s2.lastFlushed = s2.lsn ∧ s2.lsn = s.lsn ∧ s2.timers = s.clearTimer.timers ∧
      s2.flushTimeout = s.flushTimeout) ∧
    (0 ≤ s.lsn → s.lsn ≤ s.lastFlushed → s.flush = .ok s.clearTimer) := by
  obtain ⟨hl, hlf, ht, hi, hft⟩ := DataStore.clearTimer_fields s
  constructor
  · intro s2 hinv h
    unfold DataStore.flush at h
    obtain ⟨h0, _, _, _, hlsn, htim, hfto, _, hcases⟩ := DataStore.flushInternal_spec h
    rcases hcases with ⟨hle, rfl⟩ | ⟨hlt, hlast⟩
    · refine ⟨?_, hl, rfl, hft⟩
      rw [hlf, hl]
      rw [hl, hlf] at hle
      omega
    · refine ⟨?_, hlsn.trans hl, htim, hfto.trans hft⟩
      rw [hlast, hlsn, hl]
  · intro h0 hle
    unfold DataStore.flush DataStore.flushInternal LSNparse
    rw [if_neg (by rw [hl]; omega : ¬ s.clearTimer.lsn < 0)]
    dsimp only
    rw [if_pos (by rw [hl, hlf]; omega : s.clearTimer.lastFlushed ≥ s.clearTimer.lsn)]

/-- Witness for C7 at a flushed one-record collection: `flush()` completes as
a no-op that cancels the armed timer (id 5). -/
theorem flush_amended_witness :
    flushedStore.flush = .ok flushedStore.clearTimer ∧
    flushedStore.clearTimer.timers = [] :=
  ⟨(flush_amended flushedStore).2 (by decide) (by decide), rfl⟩

end NeisanDB
